import Mathlib

/-!
# Verification of the DLX Narrative Ledger (Story Writer) subsystem

Shallow embedding of the Story Writer record store and its helpers:

* `src/services/embeddingService.ts` — `embedText`, `cosineSimilarity`
* `src/services/securityService.ts` (final segment) — `StoryWriterService`
  over `StoryEntry`: `saveEntry`, `getEntries`, `getEntryById`, `deleteEntry`
* `src/unnamed/part_011` — legacy `StoryWriterService` over
  `StoryWriterEntry`: `updateEntry`, `findSimilarEntries`
* `src/unnamed/part_009` — `TemplateValidator.validate`
* `src/services/automationService.ts` — `createEntryFromPRMerge`,
  `determineEntryTypeFromPR`

JavaScript numbers are modelled as exact rationals (`ℚ`) where the source
performs only field arithmetic, and as real numbers (`ℝ`) where `Math.sqrt`
and division enter (`cosineSimilarity`); floating-point rounding is thus
idealised.  JavaScript `Map`s are modelled as association lists in insertion
order, matching `Map` iteration order.  `Array.prototype.sort` is stable
(ES2019), so it is modelled by a stable insertion sort on the comparator's
key.
-/

namespace DLX

/-! ## A stable descending sort by key

`Array.prototype.sort((a, b) => key(b) - key(a))` sorts by `key` descending
and, being stable, keeps elements with equal keys in their original order.
Any stable sorting algorithm realises this; we use insertion sort, inserting
each element after all previously placed elements of greater-or-equal key. -/

variable {α : Type*} {β : Type*}

/-- Insert `x` into `l` behind every element whose key is `≥ key x`. -/
def insertDescBy [LinearOrder β] (key : α → β) (x : α) : List α → List α
  | [] => [x]
  | y :: ys => if key x ≤ key y then y :: insertDescBy key x ys else x :: y :: ys

/-- Stable sort, descending by `key`: fold the list left-to-right through
`insertDescBy`. -/
def sortDescBy [LinearOrder β] (key : α → β) (l : List α) : List α :=
  l.foldl (fun acc x => insertDescBy key x acc) []

theorem insertDescBy_perm [LinearOrder β] (key : α → β) (x : α) (l : List α) :
    List.Perm (insertDescBy key x l) (x :: l) := by
  induction l with
  | nil => simp [insertDescBy]
  | cons y ys ih =>
      by_cases h : key x ≤ key y
      · simpa [insertDescBy, h] using ((ih.cons y).trans (List.Perm.swap x y ys))
      · simp [insertDescBy, h]

theorem mem_insertDescBy [LinearOrder β] {key : α → β} {x z : α} {l : List α} :
    z ∈ insertDescBy key x l ↔ z = x ∨ z ∈ l := by
  rw [(insertDescBy_perm key x l).mem_iff, List.mem_cons]

theorem insertDescBy_pairwise [LinearOrder β] {key : α → β} {x : α} {l : List α}
    (h : l.Pairwise (fun a b => key b ≤ key a)) :
    (insertDescBy key x l).Pairwise (fun a b => key b ≤ key a) := by
  induction l with
  | nil => simp [insertDescBy]
  | cons y ys ih =>
      rcases List.pairwise_cons.mp h with ⟨hy, hys⟩
      by_cases hxy : key x ≤ key y
      · rw [insertDescBy, if_pos hxy, List.pairwise_cons]
        refine ⟨?_, ih hys⟩
        intro z hz
        rcases mem_insertDescBy.mp hz with rfl | hz
        · exact hxy
        · exact hy z hz
      · rw [insertDescBy, if_neg hxy, List.pairwise_cons]
        refine ⟨?_, h⟩
        intro z hz
        rcases List.mem_cons.mp hz with rfl | hz
        · exact le_of_not_le hxy
        · exact le_trans (hy z hz) (le_of_not_le hxy)

theorem foldl_insertDescBy_perm [LinearOrder β] (key : α → β) (l acc : List α) :
    List.Perm (l.foldl (fun acc x => insertDescBy key x acc) acc) (acc ++ l) := by
  induction l generalizing acc with
  | nil => simp
  | cons x xs ih =>
      have h1 : (x :: xs).foldl (fun acc x => insertDescBy key x acc) acc
          = xs.foldl (fun acc x => insertDescBy key x acc) (insertDescBy key x acc) := rfl
      have h2 := ih (insertDescBy key x acc)
      have h3 : List.Perm (insertDescBy key x acc ++ xs) ((x :: acc) ++ xs) :=
        (insertDescBy_perm key x acc).append_right xs
      have h4 : List.Perm ((x :: acc) ++ xs) (acc ++ x :: xs) := by
        simpa using List.Perm.symm List.perm_middle
      rw [h1]
      exact (h2.trans h3).trans h4

theorem sortDescBy_perm [LinearOrder β] (key : α → β) (l : List α) :
    List.Perm (sortDescBy key l) l := by
  simpa [sortDescBy] using foldl_insertDescBy_perm key l []

theorem foldl_insertDescBy_pairwise [LinearOrder β] (key : α → β) (l : List α)
    {acc : List α} (hacc : acc.Pairwise (fun a b => key b ≤ key a)) :
    (l.foldl (fun acc x => insertDescBy key x acc) acc).Pairwise
      (fun a b => key b ≤ key a) := by
  induction l generalizing acc with
  | nil => exact hacc
  | cons x xs ih => exact ih (insertDescBy_pairwise hacc)

theorem sortDescBy_pairwise [LinearOrder β] (key : α → β) (l : List α) :
    (sortDescBy key l).Pairwise (fun a b => key b ≤ key a) :=
  foldl_insertDescBy_pairwise key l List.Pairwise.nil

theorem mem_sortDescBy [LinearOrder β] {key : α → β} {l : List α} {x : α} :
    x ∈ sortDescBy key l ↔ x ∈ l :=
  (sortDescBy_perm key l).mem_iff

/-! ## Embedding & similarity engine — `src/services/embeddingService.ts`

`embedText` folds each character's code point, scaled by `0.0001`, into the
bucket `index = position mod 32`, keeping each bucket in `[0, 1)` with
JavaScript `% 1`.  All quantities are nonnegative rationals, so `x % 1` is
the fractional part `x - ⌊x⌋`. -/

/-- JavaScript `x % 1` on the nonnegative accumulator values occurring in
`embedText` (for `x ≥ 0`, truncating and flooring division agree). -/
def fract (q : ℚ) : ℚ := q - ⌊q⌋

theorem fract_nonneg (q : ℚ) : 0 ≤ fract q := by
  have := Int.floor_le q
  simp only [fract]
  linarith

theorem fract_lt_one (q : ℚ) : fract q < 1 := by
  have := Int.lt_floor_add_one q
  simp only [fract]
  linarith

/-- One iteration of the `embedText` loop:
`vector[i % 32] = (vector[i % 32] + text.charCodeAt(i) * 0.0001) % 1`. -/
def embedStep (vec : List ℚ) (i : ℕ) (c : Char) : List ℚ :=
  vec.set (i % 32) (fract (vec.getD (i % 32) 0 + (c.toNat : ℚ) * (1 / 10000)))

/-- The `for` loop of `embedText` over the remaining characters, `i` being
the current position. -/
def embedLoop (vec : List ℚ) (i : ℕ) : List Char → List ℚ
  | [] => vec
  | c :: cs => embedLoop (embedStep vec i c) (i + 1) cs

/-- `EmbeddingService.embedText`: a 32-bucket accumulation over the
character codes.  (The source's early return on the empty string yields the
zero vector, which coincides with running the loop on no characters.) -/
def embedText (text : String) : List ℚ :=
  embedLoop (List.replicate 32 0) 0 text.data

/-- The one-pass accumulation of `dotProduct` in `cosineSimilarity`
(both argument vectors have equal length when it is reached). -/
def dotProd : List ℚ → List ℚ → ℚ
  | a :: as, b :: bs => a * b + dotProd as bs
  | _, _ => 0

/-- `normA` / `normB` of the `cosineSimilarity` loop: the sum of squares. -/
def normSq (v : List ℚ) : ℚ := dotProd v v

/-- `EmbeddingService.cosineSimilarity`: `0` on mismatched lengths, `0` when
`sqrt(normA) * sqrt(normB)` is zero, otherwise the normalised dot product.
Square roots force the result into `ℝ`. -/
noncomputable def cosineSimilarity (vecA vecB : List ℚ) : ℝ :=
  if vecA.length ≠ vecB.length then 0
  else
    let divisor : ℝ := Real.sqrt ((normSq vecA : ℚ) : ℝ) * Real.sqrt ((normSq vecB : ℚ) : ℝ)
    if divisor = 0 then 0 else ((dotProd vecA vecB : ℚ) : ℝ) / divisor

theorem normSq_nonneg (v : List ℚ) : 0 ≤ normSq v := by
  induction v with
  | nil => simp [normSq, dotProd]
  | cons a as ih =>
      have ha : 0 ≤ a * a := mul_self_nonneg a
      have : normSq (a :: as) = a * a + normSq as := rfl
      rw [this]
      exact add_nonneg ha ih

theorem dotProd_nonneg {a b : List ℚ} (ha : ∀ x ∈ a, 0 ≤ x) (hb : ∀ x ∈ b, 0 ≤ x) :
    0 ≤ dotProd a b := by
  induction a generalizing b with
  | nil => cases b <;> simp [dotProd]
  | cons x xs ih =>
      cases b with
      | nil => simp [dotProd]
      | cons y ys =>
          have hx : 0 ≤ x := ha x (by simp)
          have hy : 0 ≤ y := hb y (by simp)
          have hrest : 0 ≤ dotProd xs ys :=
            ih (fun z hz => ha z (by simp [hz])) (fun z hz => hb z (by simp [hz]))
          have : dotProd (x :: xs) (y :: ys) = x * y + dotProd xs ys := rfl

          rw [this]
          exact add_nonneg (mul_nonneg hx hy) hrest

/-! ## Data model — `StoryEntry` (types, src/unnamed/part_001)

`date` carries the canonical UTC format `YYYY-MM-DD HH:MM:SS`; `author` is a
free string at runtime (the TypeScript union is a compile-time-only
restriction that `TemplateValidator.validate` re-checks dynamically). -/

/-- `EntryType` enum; `entryTypeStr` gives the enum's string values. -/
inductive EntryType where
  | Decision | Incident | Milestone | Routine | Rollback | Flip
  deriving DecidableEq, Repr

/-- The string value of each `EntryType` enum member. -/
def entryTypeStr : EntryType → String
  | .Decision => "decision"
  | .Incident => "incident"
  | .Milestone => "milestone"
  | .Routine => "routine"
  | .Rollback => "rollback"
  | .Flip => "flip"

/-- `ReferenceType` enum. -/
inductive ReferenceType where
  | DVJob | HUDSnapshot | ControlHubComment | CommitHash | External
  deriving DecidableEq, Repr

/-- A typed cross-link (`Reference` in types). -/
structure Reference where
  id : String
  type : ReferenceType
  url : Option String := none
  description : String
  timestamp : Option String := none
  deriving DecidableEq, Repr

/-- `StoryEntry.status` literal union. -/
inductive Status where
  | draft | published | archived
  deriving DecidableEq, Repr

/-- `StoryEntry` (types, src/unnamed/part_001). -/
structure StoryEntry where
  id : String
  title : String
  date : String
  executiveSummary : String
  whatChanged : String
  decisionsRationale : String
  risksMitigations : String
  references : List Reference
  type : EntryType
  author : String
  version : ℕ
  status : Status
  tags : List String
  createdAt : String
  updatedAt : String
  deriving DecidableEq, Repr

/-! ## Entry store — `StoryWriterService` (securityService.ts, final segment)

The `Map<string, StoryEntry>` keyed by `id` is modelled as a list in
insertion order.  `Map.get`/`Map.has` look the key up; `Map.set` overwrites
an existing key in place (keeping its position) or appends a new one;
`Map.delete` removes the key.  The service's calls into performance
monitoring, audit logging and telemetry return no data and do not alter the
entry map or the returned entry, so they are not part of the state modelled
here (note that `securityService.validateEntry`'s result is only logged with
`console.warn` and never blocks the save). -/

/-- The entry store: `Map` contents in insertion order. -/
abbrev Store := List StoryEntry

/-- `Map.get` on a map modelled as a list of values with key `key`. -/
def keyFind (key : α → String) (l : List α) (id : String) : Option α :=
  List.find? (fun e => key e == id) l

/-- `Map.set`: overwrite the existing key in place (keeping its position),
else append. -/
def keySet (key : α → String) (l : List α) (x : α) : List α :=
  if (keyFind key l (key x)).isSome then
    List.map (fun e => if key e == key x then x else e) l
  else l ++ [x]

/-- `Map.delete`. -/
def keyRemove (key : α → String) (l : List α) (id : String) : List α :=
  List.filter (fun e => key e != id) l

/-- `StoryWriterService.getEntryById` / `Map.get`. -/
def getEntryById (store : Store) (id : String) : Option StoryEntry :=
  keyFind (fun e => e.id) store id

/-- `Map.set` on the entry map (entries are stored under their own id). -/
def setEntry (store : Store) (x : StoryEntry) : Store :=
  keySet (fun e => e.id) store x

/-- `Map.delete` on the entry map. -/
def removeEntry (store : Store) (id : String) : Store :=
  keyRemove (fun e => e.id) store id

/-- `StoryWriterService.saveEntry`.  `uuid` stands for the
`crypto.randomUUID()` drawn in the create branch and `now` for
`new Date().toISOString()`; `isNewEntry` is `!entryData.id ||
!this.entries.has(entryData.id)`.  Returns the persisted entry and the
updated store. -/
def saveEntry (store : Store) (entryData : StoryEntry) (uuid now : String) :
    StoryEntry × Store :=
  let isNewEntry := entryData.id = "" ∨ getEntryById store entryData.id = none
  if isNewEntry then
    let newEntry := { entryData with
      id := uuid
      createdAt := now
      updatedAt := now
      version := 1 }
    (newEntry, setEntry store newEntry)
  else
    match getEntryById store entryData.id with
    | some existing =>
        -- `{...existing, ...entryData, updatedAt: now, version: existing.version + 1}`:
        -- `entryData` is a full `StoryEntry`, so its spread overrides every
        -- field of `existing`; only `updatedAt` and `version` are then reset.
        let updatedEntry := { entryData with
          updatedAt := now
          version := existing.version + 1 }
        (updatedEntry, setEntry store updatedEntry)
    | none => (entryData, store)  -- unreachable: `isNewEntry` is false

/-- The timestamp key of `new Date(entry.date).getTime()` used by the
`getEntries` comparator, for dates in the canonical
`YYYY-MM-DD HH:MM:SS` layout: the mixed-radix value of the six components
(strictly monotone in the parsed instant for a fixed timezone).  Characters
outside the canonical layout contribute their digit value 0. -/
def digitVal (c : Char) : ℕ := if c.isDigit then c.toNat - 48 else 0

/-- Read a decimal number from a list of characters. -/
def digitsVal (cs : List Char) : ℕ :=
  cs.foldl (fun acc c => acc * 10 + digitVal c) 0

/-- See `digitVal`: the sort key of an entry's `date` string. -/
def dateKey (s : String) : ℕ :=
  match s.data with
  | [y1, y2, y3, y4, _, m1, m2, _, d1, d2, _, h1, h2, _, n1, n2, _, s1, s2] =>
      digitsVal [y1, y2, y3, y4, m1, m2, d1, d2, h1, h2, n1, n2, s1, s2]
  | _ => 0

/-- `StoryWriterService.getEntries`:
`Array.from(this.entries.values()).sort((a, b) => new Date(b.date).getTime()
- new Date(a.date).getTime())` — a stable sort, descending by the date key;
no filter is applied, and `createdAt` plays no role.  (The
`sortedEntriesCache` field only memoises this value.) -/
def getEntries (store : Store) : List StoryEntry :=
  sortDescBy (fun e => dateKey e.date) store

/-- `StoryWriterService.deleteEntry`: emits an audit event (not part of the
modelled state) and removes the key — no role is received and no
authorization check is performed. -/
def deleteEntry (store : Store) (id : String) : Store :=
  removeEntry store id

theorem keyFind_cons (key : α → String) (e : α) (es : List α) (i : String) :
    keyFind key (e :: es) i =
      if key e = i then some e else keyFind key es i := by
  by_cases h : key e = i
  · simp [keyFind, List.find?_cons, h]
  · simp [keyFind, List.find?_cons, h]

theorem keyFind_map_replace_self (key : α → String) (x : α) (l : List α)
    (h : (keyFind key l (key x)).isSome) :
    List.find? (fun e => key e == key x)
      (List.map (fun e => if key e == key x then x else e) l) = some x := by
  induction l with
  | nil => simp [keyFind] at h
  | cons e es ih =>
      rw [List.map_cons]
      by_cases he : key e = key x
      · have hmap : (if key e == key x then x else e) = x := by simp [he]
        rw [hmap]
        have : List.find? (fun e => key e == key x) (x :: List.map (fun e => if key e == key x then x else e) es) = keyFind key (x :: List.map (fun e => if key e == key x then x else e) es) (key x) := rfl
        rw [this, keyFind_cons, if_pos rfl]
      · have hmap : (if key e == key x then x else e) = e := by simp [he]
        have h' : (keyFind key es (key x)).isSome := by
          rw [keyFind_cons, if_neg he] at h
          exact h
        rw [hmap]
        have : List.find? (fun e => key e == key x) (e :: List.map (fun e => if key e == key x then x else e) es) = keyFind key (e :: List.map (fun e => if key e == key x then x else e) es) (key x) := rfl
        rw [this, keyFind_cons, if_neg he]
        exact ih h'

theorem keyFind_keySet_self (key : α → String) (l : List α) (x : α) :
    keyFind key (keySet key l x) (key x) = some x := by
  unfold keySet
  by_cases h : (keyFind key l (key x)).isSome
  · rw [if_pos h]
    exact keyFind_map_replace_self key x l h
  · rw [if_neg h]
    unfold keyFind at h ⊢
    rw [List.find?_append]
    rw [Option.not_isSome_iff_eq_none] at h
    simp [h, List.find?]

theorem keyFind_map_replace_ne (key : α → String) (x : α) {id : String}
    (hne : key x ≠ id) (l : List α) :
    List.find? (fun e => key e == id)
        (List.map (fun e => if key e == key x then x else e) l) =
      keyFind key l id := by
  induction l with
  | nil => rfl
  | cons e es ih =>
      rw [List.map_cons]
      by_cases he : key e = key x
      · have hmap : (if key e == key x then x else e) = x := by simp [he]
        rw [hmap]
        have hx : List.find? (fun e => key e == id) (x :: List.map (fun e => if key e == key x then x else e) es) = keyFind key (x :: List.map (fun e => if key e == key x then x else e) es) id := rfl
        rw [hx, keyFind_cons, if_neg hne, keyFind_cons, if_neg (he ▸ hne)]
        exact ih
      · have hmap : (if key e == key x then x else e) = e := by simp [he]
        rw [hmap]
        have hx : List.find? (fun e => key e == id) (e :: List.map (fun e => if key e == key x then x else e) es) = keyFind key (e :: List.map (fun e => if key e == key x then x else e) es) id := rfl
        rw [hx, keyFind_cons, keyFind_cons]
        by_cases heid : key e = id
        · rw [if_pos heid, if_pos heid]
        · rw [if_neg heid, if_neg heid]
          exact ih

theorem keyFind_keySet_ne (key : α → String) (l : List α) (x : α) {id : String}
    (hne : key x ≠ id) :
    keyFind key (keySet key l x) id = keyFind key l id := by
  unfold keySet
  by_cases h : (keyFind key l (key x)).isSome
  · rw [if_pos h]
    exact keyFind_map_replace_ne key x hne l
  · rw [if_neg h]
    unfold keyFind
    rw [List.find?_append]
    cases hfind : List.find? (fun e => key e == id) l with
    | some w => simp [keyFind, hfind]
    | none =>
        have hx : (key x == id) = false := by simp [hne]
        simp [keyFind, hfind, List.find?, hx]

theorem keyFind_keyRemove_self (key : α → String) (l : List α) (id : String) :
    keyFind key (keyRemove key l id) id = none := by
  unfold keyFind keyRemove
  rw [List.find?_eq_none]
  intro e he
  have := (List.mem_filter.mp he).2
  simp only [bne_iff_ne, ne_eq] at this
  simpa using this

theorem getEntryById_setEntry_self (store : Store) (x : StoryEntry) :
    getEntryById (setEntry store x) x.id = some x := by
  unfold getEntryById setEntry
  exact keyFind_keySet_self (fun e => e.id) store x

theorem getEntryById_setEntry_ne (store : Store) (x : StoryEntry) {id : String}
    (hne : x.id ≠ id) :
    getEntryById (setEntry store x) id = getEntryById store id := by
  unfold getEntryById setEntry
  exact keyFind_keySet_ne (fun e => e.id) store x hne

theorem getEntryById_removeEntry_self (store : Store) (id : String) :
    getEntryById (removeEntry store id) id = none := by
  unfold getEntryById removeEntry
  exact keyFind_keyRemove_self (fun e => e.id) store id

/-! ## Template validation — `TemplateValidator` (src/unnamed/part_009)

`validate` pushes error strings and warning strings into two separate
arrays and reports `isValid := errors.length === 0`.  JavaScript notes
reflected below: an array (`references`) is always truthy, so the
required-field loop can never flag it; `entry.type` always belongs to the
`EntryType` enum, so the type check never fires; the author check's
`!entry.author` case is subsumed by `"" ∉ ['lux','mini-lux','scribe']`. -/

/-- `DATE_REGEX = /^\d{4}-\d{2}-\d{2} \d{2}:\d{2}:\d{2}$/` -/
def dateRegexOk (s : String) : Bool :=
  match s.data with
  | [y1, y2, y3, y4, '-', m1, m2, '-', d1, d2, ' ', h1, h2, ':', n1, n2, ':', s1, s2] =>
      [y1, y2, y3, y4, m1, m2, d1, d2, h1, h2, n1, n2, s1, s2].all Char.isDigit
  | _ => false

/-- Gregorian leap year. -/
def isLeapYear (y : ℕ) : Bool := y % 4 = 0 && (y % 100 != 0 || y % 400 = 0)

/-- Days in a month of the proleptic Gregorian calendar. -/
def daysInMonth (y m : ℕ) : ℕ :=
  if m = 2 then (if isLeapYear y then 29 else 28)
  else if m = 4 || m = 6 || m = 9 || m = 11 then 30
  else 31

/-- Validity of `new Date(entry.date.replace(' ', 'T') + 'Z')` — V8's ISO
parser accepts a full date-time with in-range components and yields an
invalid date otherwise.  Modelled for full `YYYY-MM-DD(T| )HH:MM:SS`
strings (the ledger's canonical layout); shorter ISO forms, which the
validator never receives from canonical entries, are modelled as invalid. -/
def jsDateValid (s : String) : Bool :=
  match s.data with
  | [y1, y2, y3, y4, '-', m1, m2, '-', d1, d2, sep, h1, h2, ':', n1, n2, ':', s1, s2] =>
      (sep = ' ' || sep = 'T') &&
      [y1, y2, y3, y4, m1, m2, d1, d2, h1, h2, n1, n2, s1, s2].all Char.isDigit &&
      (let mo := digitsVal [m1, m2]
       let dy := digitsVal [d1, d2]
       let hh := digitsVal [h1, h2]
       let mi := digitsVal [n1, n2]
       let ss := digitsVal [s1, s2]
       1 ≤ mo && mo ≤ 12 && 1 ≤ dy && dy ≤ daysInMonth (digitsVal [y1, y2, y3, y4]) mo &&
       ((hh ≤ 23 && mi ≤ 59 && ss ≤ 59) || (hh = 24 && mi = 0 && ss = 0)))
  | _ => false

/-- `ValidationResult` (src/unnamed/part_009). -/
structure ValidationResult where
  isValid : Bool
  errors : List String
  warnings : List String
  deriving DecidableEq, Repr

/-- The `references.forEach` loop of `validate`: one error per reference
with an empty `id` or `description` (`ref.type` is an enum value, hence
always truthy). -/
def referenceErrors (refs : List Reference) : List String :=
  refs.enum.filterMap fun p =>
    if p.2.id = "" ∨ p.2.description = "" then
      some ("Reference " ++ toString p.1 ++ " is incomplete (needs id, type, and description)")
    else none

/-- `TemplateValidator.validate`.  Error pushes in source order: the
required-field loop over
`[title, date, executiveSummary, whatChanged, decisionsRationale,
risksMitigations, references]` (the last never fires — arrays are truthy),
title length, date format, reference completeness, author, type (never
fires), chronological parse.  Warnings: short summary, brief whatChanged,
no references. -/
def validate (entry : StoryEntry) : ValidationResult :=
  let errors : List String :=
    (if entry.title = "" then ["Missing required field: title"] else []) ++
    (if entry.date = "" then ["Missing required field: date"] else []) ++
    (if entry.executiveSummary = "" then ["Missing required field: executiveSummary"] else []) ++
    (if entry.whatChanged = "" then ["Missing required field: whatChanged"] else []) ++
    (if entry.decisionsRationale = "" then ["Missing required field: decisionsRationale"] else []) ++
    (if entry.risksMitigations = "" then ["Missing required field: risksMitigations"] else []) ++
    (if entry.title ≠ "" ∧ entry.title.length < 5 then
      ["Title too short (minimum 5 characters)"] else []) ++
    (if entry.date ≠ "" ∧ ¬ dateRegexOk entry.date then
      ["Date must be in UTC format: YYYY-MM-DD HH:MM:SS"] else []) ++
    (if entry.references ≠ [] then referenceErrors entry.references else []) ++
    (if entry.author ∈ ["lux", "mini-lux", "scribe"] then []
      else ["Author must be one of: lux, mini-lux, scribe"]) ++
    (if entry.date ≠ "" ∧ ¬ jsDateValid entry.date then ["Invalid date format"] else [])
  let warnings : List String :=
    (if entry.executiveSummary ≠ "" ∧ entry.executiveSummary.length < 20 then
      ["Executive summary is short (minimum 20 characters recommended)"] else []) ++
    (if entry.whatChanged ≠ "" ∧ entry.whatChanged.length < 10 then
      ["\"What changed\" is brief (minimum 10 characters recommended)"] else []) ++
    (if entry.references = [] then
      ["No references provided. Consider adding commit hashes, PR links, or other references."]
      else [])
  { isValid := errors.isEmpty, errors := errors, warnings := warnings }

/-! ## Automated ingestion — `AutomationService` (src/services/automationService.ts)

`createEntryFromPRMerge` guards on the automation flag and a non-null
`merged_at`, classifies the entry type by ordered keyword checks, extracts
narrative sections from the PR body by heading-regex matches, and hands the
assembled entry to `StoryWriterService.saveEntry`.  Case-insensitive
matching is modelled by per-character lowercasing (ASCII-faithful). -/

/-- `String.prototype.toLowerCase()`. -/
def toLowerStr (s : String) : String := String.mk (s.data.map Char.toLower)

/-- Substring occurrence: does `pat` occur contiguously in `s`? -/
def hasInfix : List Char → List Char → Bool
  | s@(_ :: rest), pat => List.isPrefixOf pat s || hasInfix rest pat
  | [], pat => pat.isEmpty

/-- `String.prototype.includes(pat)`. -/
def containsSub (s pat : String) : Bool := hasInfix s.data pat.data

/-- `AutomationService.determineEntryTypeFromPR`: ordered first-match
keyword heuristics over the lowercased title and body. -/
def determineEntryTypeFromPR (title : String) (body : Option String) : EntryType :=
  let t := toLowerStr title
  let b := toLowerStr (body.getD "")
  if containsSub t "rollback" || containsSub b "rollback" then .Rollback
  else if containsSub t "incident" || containsSub t "hotfix" || containsSub t "fix" then .Incident
  else if containsSub t "flip" || containsSub t "feature flag" then .Flip
  else if containsSub t "milestone" || containsSub t "release" || containsSub t "major" then .Milestone
  else if containsSub t "decision" || containsSub t "rfc" then .Decision
  else .Routine

/-- JavaScript regex `\s` on the section-heading patterns (ASCII whitespace;
exotic Unicode spaces are not produced by the ledger's inputs). -/
def jsWs (c : Char) : Bool :=
  c = ' ' || c = '\t' || c = '\n' || c = '\r' || c = '\x0b' || c = '\x0c'

/-- Strip a lowercase keyword case-insensitively from the front of `cs`. -/
def stripKeyword : List Char → List Char → Option (List Char)
  | [], cs => some cs
  | _ :: _, [] => none
  | p :: ps, c :: cs => if c.toLower = p then stripKeyword ps cs else none

/-- First keyword of the regex alternation that matches at the front. -/
def tryKeywords (kws : List (List Char)) (cs : List Char) : Option (List Char) :=
  match kws with
  | [] => none
  | k :: ks =>
      match stripKeyword k cs with
      | some rest => some rest
      | none => tryKeywords ks cs

/-- `\s*` (greedy, followed by a non-whitespace literal): skip whitespace. -/
def skipWs : List Char → List Char
  | c :: rest => if jsWs c then skipWs rest else c :: rest
  | [] => []

/-- `\s*\n` after the heading keyword: consume the leading whitespace run
provided it contains a newline, resuming after its *last* newline (the
greedy `\s*` backtracks to the final `\n` of the run). -/
def afterHeadingWs : List Char → Option (List Char) → Option (List Char)
  | c :: rest, found =>
      if jsWs c then afterHeadingWs rest (if c = '\n' then some rest else found)
      else found
  | [], found => found

/-- The lazy capture `([\s\S]*?)(?=\n##|$)`: everything up to the first
`\n##` or, failing that, the end of the string. -/
def captureUntilStop : List Char → List Char
  | '\n' :: '#' :: '#' :: _ => []
  | c :: rest => c :: captureUntilStop rest
  | [] => []

/-- Attempt the heading regex `##?\s*(kw₁|kw₂|…)\s*\n([\s\S]*?)(?=\n##|$)`
anchored at the front of `cs`.  (`##?` is greedy; its one-`#` alternative
cannot succeed when a second `#` follows, since neither `\s` nor a keyword
begins with `#`, so consuming an immediately following second `#` is
equivalent.) -/
def tryHeadingAt (kws : List (List Char)) (cs : List Char) : Option (List Char) :=
  match cs with
  | '#' :: rest =>
      let rest := match rest with
        | '#' :: r2 => r2
        | _ => rest
      match tryKeywords kws (skipWs rest) with
      | some afterKw =>
          match afterHeadingWs afterKw none with
          | some start => some (captureUntilStop start)
          | none => none
      | none => none
  | _ => none

/-- `body.match(...)`: scan left to right for the first position where the
heading regex matches; return capture group 2. -/
def findSection (kws : List (List Char)) : List Char → Option (List Char)
  | [] => none
  | c :: rest =>
      match tryHeadingAt kws (c :: rest) with
      | some cap => some cap
      | none => findSection kws rest

/-- `String.prototype.trim()`. -/
def trimJs (cs : List Char) : List Char :=
  ((cs.dropWhile jsWs).reverse.dropWhile jsWs).reverse

/-- Shared body of the three `extract*` helpers: matched section text,
trimmed, or the fallback message. -/
def extractSection (body : Option String) (kws : List String) (fallback : String) : String :=
  match findSection (kws.map String.data) (body.getD "").data with
  | some cap => String.mk (trimJs cap)
  | none => fallback

/-- `AutomationService.extractWhatChanged`; keyword order mirrors the
alternation `(What Changed|Changes)`. -/
def extractWhatChanged (body : Option String) : String :=
  extractSection body ["what changed", "changes"] "See PR description for details."

/-- `AutomationService.extractDecisionsRationale`; `Decisions?` is the
greedy optional-`s` form, hence `decisions` before `decision`. -/
def extractDecisionsRationale (body : Option String) : String :=
  extractSection body ["rationale", "why", "decisions", "decision"]
    "See PR discussion for rationale."

/-- `AutomationService.extractRisksMitigations`. -/
def extractRisksMitigations (body : Option String) : String :=
  extractSection body ["risks", "risk", "mitigations", "mitigation"]
    "Standard deployment risks apply."

/-- `body.split('\n\n')[0]`: the prefix before the first blank line. -/
def firstParagraphOf : List Char → List Char
  | '\n' :: '\n' :: _ => []
  | c :: rest => c :: firstParagraphOf rest
  | [] => []

/-- `AutomationService.generateExecutiveSummary`. -/
def generateExecutiveSummary (title : String) (body : Option String) : String :=
  let para := trimJs (firstParagraphOf (body.getD "").data)
  if para ≠ [] ∧ 20 < para.length then String.mk (para.take 300)
  else "PR #" ++ title ++ " was merged, implementing the described changes."

/-- `AutomationService.generateTags`. -/
def generateTags (title : String) (entryType : EntryType) : List String :=
  let t := toLowerStr title
  ["deploy", "automated"] ++
  (if containsSub t "feature" then ["feature"] else []) ++
  (if containsSub t "fix" then ["bugfix"] else []) ++
  (if containsSub t "security" then ["security"] else []) ++
  (if containsSub t "performance" then ["optimization"] else []) ++
  (if containsSub t "docs" then ["doc-update"] else []) ++
  [entryTypeStr entryType]

/-- `StoryWriterConfig` (defaults: automation on, no auto-publish,
author `mini-lux`, references included). -/
structure StoryWriterConfig where
  enableAutomation : Bool
  autoPublish : Bool
  defaultAuthor : String
  includeReferences : Bool
  deriving DecidableEq, Repr

/-- The `pull_request` payload fields consumed by the pipeline. -/
structure GitHubPR where
  number : ℕ
  title : String
  html_url : String
  merged_at : Option String
  userLogin : String
  baseRef : String
  headSha : String
  body : Option String
  deriving DecidableEq, Repr

/-- `GitHubPREvent`. -/
structure GitHubPREvent where
  action : String
  pull_request : GitHubPR
  deriving DecidableEq, Repr

/-- `AutomationService.createEntryFromPRMerge`.  Returns `null` when
automation is disabled or `merged_at` is null (no entry is created and the
store is untouched); otherwise assembles the draft entry and persists it
through `StoryWriterService.saveEntry`.  `entryId` stands for the
`crypto.randomUUID()` drawn for the entry, `saveUuid`/`saveNow` for the
uuid and `toISOString()` clock read inside `saveEntry`, `nowIso` for the
pipeline's own `toISOString()`, and `nowFmt` for `formatDateUTC(now)`.
`!merged_at` also skips an *empty-string* timestamp (JS falsiness). -/
def createEntryFromPRMerge (cfg : StoryWriterConfig) (store : Store)
    (ev : GitHubPREvent) (entryId saveUuid saveNow nowIso nowFmt : String) :
    Option StoryEntry × Store :=
  if ¬ cfg.enableAutomation then (none, store)
  else
    match ev.pull_request.merged_at with
    | none => (none, store)
    | some mergedAt =>
      if mergedAt = "" then (none, store)
      else
          let pr := ev.pull_request
          let entryType := determineEntryTypeFromPR pr.title pr.body
          let references : List Reference :=
            if cfg.includeReferences then
              [{ id := "PR#" ++ toString pr.number
                 type := ReferenceType.External
                 url := some pr.html_url
                 description := "Pull Request #" ++ toString pr.number
                 timestamp := some mergedAt },
               { id := String.mk (pr.headSha.data.take 7)
                 type := ReferenceType.CommitHash
                 description := "Merge commit for PR #" ++ toString pr.number }]
            else []
          let entry : StoryEntry :=
            { id := entryId
              title := "Deploy • " ++ pr.title
              date := nowFmt
              executiveSummary := generateExecutiveSummary pr.title pr.body
              whatChanged := extractWhatChanged pr.body
              decisionsRationale := extractDecisionsRationale pr.body
              risksMitigations := extractRisksMitigations pr.body
              references := references
              type := entryType
              author := cfg.defaultAuthor
              version := 1
              status := if cfg.autoPublish then Status.published else Status.draft
              tags := generateTags pr.title entryType
              createdAt := nowIso
              updatedAt := nowIso }
          let saved := saveEntry store entry saveUuid saveNow
          (some saved.1, saved.2)

/-! ## Legacy entry service — `StoryWriterService` (src/unnamed/part_011)

This earlier generation of the service works over `StoryWriterEntry`
(types, src/unnamed/part_000) with `status ∈ {active, superseded}` and a
separate drafts map.  Its `Map<string, StoryWriterEntry>` is modelled as a
list of key/value pairs, since `updateEntry` stores under its `id`
*parameter*.  `generateIntegrityHash` (a SHA-256 hex digest of the
concatenated narrative content) is modelled by its preimage — the
concatenated content string — which no claim inspects. -/

/-- `ExternalDocRef` (types, src/unnamed/part_000). -/
structure ExternalDocRef where
  label : String
  url : String
  deriving DecidableEq, Repr

/-- `ReferenceBlock` (types, src/unnamed/part_000). -/
structure ReferenceBlock where
  dvJobIds : Option (List String) := none
  hudSnapshotIds : Option (List String) := none
  controlHubCommentIds : Option (List String) := none
  commitHashes : Option (List String) := none
  externalDocs : Option (List ExternalDocRef) := none
  deriving DecidableEq, Repr

/-- `RoleAttribution` (types, src/unnamed/part_000); `role` is the
`'lux' | 'mini-lux' | 'scribe'` union at runtime, a string. -/
structure RoleAttribution where
  role : String
  author : String
  contributionSummary : String
  deriving DecidableEq, Repr

/-- `SystemMetrics` inside `EnvironmentFingerprint`. -/
structure SystemMetrics where
  cpuLoad : Option ℚ := none
  memGB : Option ℚ := none
  gpuUtil : Option ℚ := none
  deriving DecidableEq, Repr

/-- `EnvironmentFingerprint` (types, src/unnamed/part_000);
`modelVersions : Record<string, string>` as a key/value list. -/
structure EnvironmentFingerprint where
  modelVersions : Option (List (String × String)) := none
  systemMetrics : Option SystemMetrics := none
  dlxVersion : Option String := none
  deriving DecidableEq, Repr

/-- `StoryWriterEntry.status` literal union. -/
inductive WStatus where
  | active | superseded
  deriving DecidableEq, Repr

/-- The per-field embedding block assigned by
`StoryWriterService.processEmbeddings`; the service always sets all three
fields together. -/
structure WEmbeddings where
  executiveSummary : List ℚ
  decisionsRationale : List ℚ
  risksMitigations : List ℚ
  deriving DecidableEq, Repr

/-- `StoryWriterEntry` (types, src/unnamed/part_000), together with the
`embeddings`, `hash` and `isDraft` fields the part_011 service assigns. -/
structure StoryWriterEntry where
  id : String
  createdUtc : String
  updatedUtc : String
  title : String
  dateUtc : String
  executiveSummary : String
  whatChanged : String
  decisionsRationale : String
  risksMitigations : String
  references : ReferenceBlock
  tags : List String
  roleAttributions : List RoleAttribution
  status : WStatus
  revision : ℕ
  supersedesEntryId : Option String := none
  environmentFingerprint : Option EnvironmentFingerprint := none
  narrativeExtended : Option String := none
  embeddings : Option WEmbeddings := none
  hash : Option String := none
  isDraft : Option Bool := none
  deriving DecidableEq, Repr

/-- The legacy service's entry map: key/value pairs in insertion order. -/
abbrev WStore := List (String × StoryWriterEntry)

/-- The content string whose SHA-256 digest `generateIntegrityHash`
computes; the digest itself is modelled by this preimage. -/
def integrityContent (e : StoryWriterEntry) : String :=
  e.title ++ e.dateUtc ++ e.executiveSummary ++ e.whatChanged ++
    e.decisionsRationale ++ e.risksMitigations

/-- `StoryWriterService.processEmbeddings` (part_011): recompute the three
narrative-field embeddings. -/
def processEmbeddings (e : StoryWriterEntry) : StoryWriterEntry :=
  let b : WEmbeddings :=
    { executiveSummary := embedText e.executiveSummary
      decisionsRationale := embedText e.decisionsRationale
      risksMitigations := embedText e.risksMitigations }
  { e with embeddings := some b }

/-- `this.entries.get(id)` in the legacy service. -/
def wGet (store : WStore) (id : String) : Option StoryWriterEntry :=
  Option.map Prod.snd (keyFind Prod.fst store id)

/-- `StoryWriterService.getEntries` (part_011): `Map` values in insertion
order (no sorting, no status filter). -/
def wGetEntries (store : WStore) : List StoryWriterEntry :=
  store.map Prod.snd

/-- `StoryWriterService.updateEntry` (part_011): throws
`Entry with id ${id} not found` for an unknown id; otherwise the full
`updateData` spread overrides every field of the existing entry, then
`updatedUtc`, the integrity hash and the embeddings are recomputed and the
result is stored under the `id` parameter. -/
def updateEntry (store : WStore) (id : String) (updateData : StoryWriterEntry)
    (now : String) : Except String (StoryWriterEntry × WStore) :=
  match wGet store id with
  | none => .error ("Entry with id " ++ id ++ " not found")
  | some _ =>
      let u1 := { updateData with updatedUtc := now }
      let u2 := { u1 with hash := some (integrityContent u1) }
      let u3 := processEmbeddings u2
      .ok (u3, keySet Prod.fst store (id, u3))

/-- The `executiveSummary` embedding of a candidate entry
(`entry.embeddings!.executiveSummary!`; only applied to entries the filter
has already checked for a present embedding block). -/
def wExecEmbedding (e : StoryWriterEntry) : List ℚ :=
  match e.embeddings with
  | some b => b.executiveSummary
  | none => []

/-- `StoryWriterService.findSimilarEntries` (part_011).  Returns `[]` when
the target has no embedding block; otherwise scores every *other* entry
that has an embedding block — with no status filter — by cosine similarity
of the `executiveSummary` embeddings, sorts descending by score
(`(a, b) => b.score - a.score`, stable) and truncates to `topK`. -/
noncomputable def findSimilarEntries (store : WStore) (targetEntry : StoryWriterEntry)
    (topK : ℕ := 5) : List (StoryWriterEntry × ℝ) :=
  match targetEntry.embeddings with
  | none => []
  | some emb =>
      let allEntries := (wGetEntries store).filter
        (fun e => e.id != targetEntry.id && e.embeddings.isSome)
      let scores := allEntries.map
        (fun e => (e, cosineSimilarity emb.executiveSummary (wExecEmbedding e)))
      (sortDescBy (fun p => p.2) scores).take topK

/-! ## Supersede — modelled from the spec

Modelled from the spec: no `supersede` operation exists under `src/` — only
the `StoryWriterEntry` type (src/unnamed/part_000) declares the
`supersedesEntryId` link and an archived/superseded status.  Following spec
§4.1/§6: `supersede(oldId, newEntry)` atomically persists `newEntry` with
`supersedesEntryId = oldId` and flips the old entry's status to `archived`;
on an unknown `oldId` it fails and neither mutation occurs.  The entry
shape keeps the fields the operation touches (identity, lifecycle status,
supersession link). -/

/-- Modelled from the spec: the slice of spec §3's Entry that `supersede`
reads and writes. -/
structure LedgerEntry where
  id : String
  status : Status
  supersedesEntryId : Option String := none
  deriving DecidableEq, Repr

/-- The ledger keyed by entry id. -/
abbrev LedgerStore := List LedgerEntry

/-- `get(id)` on the ledger. -/
def getLedger (store : LedgerStore) (id : String) : Option LedgerEntry :=
  keyFind (fun e => e.id) store id

/-- Modelled from the spec: `supersede(oldId, newEntry)` — persist
`newEntry` with `supersedesEntryId = oldId`, flip the old entry to
`archived`, as one transactional unit; `NotFound` on an unknown `oldId`
with no visible mutation. -/
def supersede (store : LedgerStore) (oldId : String) (newEntry : LedgerEntry) :
    Except String LedgerStore :=
  match getLedger store oldId with
  | none => .error "NotFound"
  | some _ =>
      let archived := store.map
        (fun e => if e.id = oldId then { e with status := Status.archived } else e)
      .ok (keySet (fun e => e.id) archived
        { newEntry with supersedesEntryId := some oldId })

/-! ## Theorems -/

theorem embedLoop_inv (cs : List Char) (vec : List ℚ) (i : ℕ)
    (hlen : vec.length = 32) (hbd : ∀ x ∈ vec, 0 ≤ x ∧ x < 1) :
    (embedLoop vec i cs).length = 32 ∧ ∀ x ∈ embedLoop vec i cs, 0 ≤ x ∧ x < 1 := by
  induction cs generalizing vec i with
  | nil => exact ⟨hlen, hbd⟩
  | cons c rest ih =>
      refine ih (embedStep vec i c) (i + 1) ?_ ?_
      · simp [embedStep, hlen]
      · intro x hx
        rcases List.mem_or_eq_of_mem_set hx with hx | rfl
        · exact hbd x hx
        · exact ⟨fract_nonneg _, fract_lt_one _⟩

theorem embedText_spec (text : String) :
    (embedText text).length = 32 ∧ ∀ x ∈ embedText text, 0 ≤ x ∧ x < 1 := by
  refine embedLoop_inv text.data (List.replicate 32 0) 0 (by simp) ?_
  intro x hx
  rw [List.eq_of_mem_replicate hx]
  norm_num

theorem cosineSimilarity_self {v : List ℚ} (h : normSq v ≠ 0) :
    cosineSimilarity v v = 1 := by
  unfold cosineSimilarity
  rw [if_neg (by simp)]
  have hnn : (0 : ℝ) ≤ ((normSq v : ℚ) : ℝ) := by exact_mod_cast normSq_nonneg v
  have hsq : Real.sqrt ((normSq v : ℚ) : ℝ) * Real.sqrt ((normSq v : ℚ) : ℝ)
      = ((normSq v : ℚ) : ℝ) := Real.mul_self_sqrt hnn
  have hne : ((normSq v : ℚ) : ℝ) ≠ 0 := by exact_mod_cast h
  simp only [hsq]
  rw [if_neg hne]
  have hdot : dotProd v v = normSq v := rfl
  rw [hdot, div_self hne]

theorem cosineSimilarity_zero_left {v w : List ℚ} (h : normSq v = 0) :
    cosineSimilarity v w = 0 := by
  unfold cosineSimilarity
  by_cases hl : v.length ≠ w.length
  · rw [if_pos hl]
  · rw [if_neg hl]
    have : ((normSq v : ℚ) : ℝ) = 0 := by exact_mod_cast h
    simp [this]

theorem cosineSimilarity_zero_right {v w : List ℚ} (h : normSq w = 0) :
    cosineSimilarity v w = 0 := by
  unfold cosineSimilarity
  by_cases hl : v.length ≠ w.length
  · rw [if_pos hl]
  · rw [if_neg hl]
    have : ((normSq w : ℚ) : ℝ) = 0 := by exact_mod_cast h
    simp [this]

theorem cosineSimilarity_length_ne {v w : List ℚ} (h : v.length ≠ w.length) :
    cosineSimilarity v w = 0 := by
  unfold cosineSimilarity
  rw [if_pos h]

theorem cosineSimilarity_nonneg_of_nonneg {v w : List ℚ}
    (hv : ∀ x ∈ v, 0 ≤ x) (hw : ∀ x ∈ w, 0 ≤ x) :
    0 ≤ cosineSimilarity v w := by
  unfold cosineSimilarity
  by_cases hl : v.length ≠ w.length
  · rw [if_pos hl]
  · rw [if_neg hl]
    by_cases hd : Real.sqrt ((normSq v : ℚ) : ℝ) * Real.sqrt ((normSq w : ℚ) : ℝ) = 0
    · simp [hd]
    · simp only [hd, if_neg, ite_false]
      refine div_nonneg ?_ ?_
      · exact_mod_cast dotProd_nonneg hv hw
      · exact mul_nonneg (Real.sqrt_nonneg _) (Real.sqrt_nonneg _)

/-- C9: `cosineSimilarity(v, v) = 1` for every vector of non-zero norm
(exact in the idealised real-arithmetic model, hence within floating-point
tolerance), and `cosineSimilarity` returns `0` — rather than raising — for
zero-norm vectors, for empty vectors, and for mismatched lengths. -/
theorem claim_cosineSimilarity_self_and_degenerate :
    (∀ v : List ℚ, normSq v ≠ 0 → cosineSimilarity v v = 1) ∧
    (∀ v w : List ℚ, normSq v = 0 → cosineSimilarity v w = 0) ∧
    (∀ v w : List ℚ, normSq w = 0 → cosineSimilarity v w = 0) ∧
    cosineSimilarity [] [] = 0 ∧
    (∀ v w : List ℚ, v.length ≠ w.length → cosineSimilarity v w = 0) :=
  ⟨fun _ h => cosineSimilarity_self h,
   fun _ _ h => cosineSimilarity_zero_left h,
   fun _ _ h => cosineSimilarity_zero_right h,
   cosineSimilarity_zero_left rfl,
   fun _ _ h => cosineSimilarity_length_ne h⟩

/-- Witness for C9 at concrete vectors. -/
theorem claim_cosineSimilarity_self_and_degenerate_witness :
    normSq [(1 : ℚ)] ≠ 0 ∧
    cosineSimilarity [(1 : ℚ)] [(1 : ℚ)] = 1 ∧
    cosineSimilarity [(0 : ℚ)] [(1 : ℚ)] = 0 ∧
    cosineSimilarity [] [] = 0 ∧
    cosineSimilarity [(1 : ℚ)] [] = 0 :=
  ⟨by norm_num [normSq, dotProd],
   claim_cosineSimilarity_self_and_degenerate.1 [(1 : ℚ)] (by norm_num [normSq, dotProd]),
   claim_cosineSimilarity_self_and_degenerate.2.1 [(0 : ℚ)] [(1 : ℚ)]
     (by norm_num [normSq, dotProd]),
   claim_cosineSimilarity_self_and_degenerate.2.2.2.1,
   claim_cosineSimilarity_self_and_degenerate.2.2.2.2 [(1 : ℚ)] [] (by norm_num)⟩

/-- C10: every text embedding has exactly 32 components, each in `[0, 1)`;
consequently the cosine similarity of two text embeddings is never
negative. -/
theorem claim_embedText_bounds :
    (∀ text : String, (embedText text).length = 32) ∧
    (∀ text : String, ∀ x ∈ embedText text, 0 ≤ x ∧ x < 1) ∧
    (∀ a b : String, 0 ≤ cosineSimilarity (embedText a) (embedText b)) := by
  refine ⟨fun t => (embedText_spec t).1, fun t => (embedText_spec t).2, fun a b => ?_⟩
  exact cosineSimilarity_nonneg_of_nonneg
    (fun x hx => ((embedText_spec a).2 x hx).1)
    (fun x hx => ((embedText_spec b).2 x hx).1)

/-- Witness for C10 at the concrete strings `"a"` and `"b"`. -/
theorem claim_embedText_bounds_witness :
    (embedText "a").length = 32 ∧
    (0 ≤ (embedText "a").getD 0 0 ∧ (embedText "a").getD 0 0 < 1) ∧
    0 ≤ cosineSimilarity (embedText "a") (embedText "b") := by
  have hlen := claim_embedText_bounds.1 "a"
  have h0 : 0 < (embedText "a").length := by rw [hlen]; norm_num
  have hmem : (embedText "a").getD 0 0 ∈ embedText "a" := by
    rw [List.getD_eq_getElem _ _ h0]
    exact List.getElem_mem h0
  exact ⟨hlen, claim_embedText_bounds.2.1 "a" _ hmem,
    claim_embedText_bounds.2.2 "a" "b"⟩

/-- A fully populated, valid entry used by several concrete instances
(patterned on the seeded initial entries). -/
def baseEntry : StoryEntry :=
  { id := "1"
    title := "Inception • DLX • Project Boot"
    date := "2024-09-01 12:00:00"
    executiveSummary := "DLX project initiated: architecture vision defined."
    whatChanged := "- Monorepo created"
    decisionsRationale := "Local-first approach chosen for cost control."
    risksMitigations := "Risk: complexity. Mitigation: phased delivery."
    references := [{ id := "abcd1234"
                     type := ReferenceType.CommitHash
                     description := "Initial project commit" }]
    type := EntryType.Milestone
    author := "lux"
    version := 3
    status := Status.published
    tags := ["backfill", "decision"]
    createdAt := "2024-09-01T12:00:00Z"
    updatedAt := "2024-09-01T12:00:00Z" }

/-- C1: saving an entry stored under its id makes `getEntryById` return it
with `version` exactly one above the previously stored version; a newly
created entry (empty or unknown id) is stored with `version = 1` and is
retrievable under its fresh id. -/
theorem claim_saveEntry_revision (store : Store) (entryData : StoryEntry)
    (uuid now : String) :
    (∀ old, entryData.id ≠ "" → getEntryById store entryData.id = some old →
      (saveEntry store entryData uuid now).1.version = old.version + 1 ∧
      getEntryById (saveEntry store entryData uuid now).2 entryData.id =
        some (saveEntry store entryData uuid now).1) ∧
    ((entryData.id = "" ∨ getEntryById store entryData.id = none) →
      (saveEntry store entryData uuid now).1.version = 1 ∧
      getEntryById (saveEntry store entryData uuid now).2
          (saveEntry store entryData uuid now).1.id =
        some (saveEntry store entryData uuid now).1) := by
  constructor
  · intro old hid hget
    have hnot : ¬ (entryData.id = "" ∨ getEntryById store entryData.id = none) := by
      push_neg
      exact ⟨hid, by simp [hget]⟩
    have hsave : saveEntry store entryData uuid now =
        (let updatedEntry :=
          { entryData with updatedAt := now, version := old.version + 1 }
         (updatedEntry, setEntry store updatedEntry)) := by
      unfold saveEntry
      rw [if_neg hnot, hget]
    rw [hsave]
    refine ⟨rfl, ?_⟩
    exact getEntryById_setEntry_self store _
  · intro hnew
    have hsave : saveEntry store entryData uuid now =
        (let newEntry :=
          { entryData with id := uuid, createdAt := now, updatedAt := now, version := 1 }
         (newEntry, setEntry store newEntry)) := by
      unfold saveEntry
      rw [if_pos hnew]
    rw [hsave]
    refine ⟨rfl, ?_⟩
    exact getEntryById_setEntry_self store _

/-- Witness for C1: updating the stored `baseEntry` (version 3) yields
version 4 under the same id; saving under an unknown id yields version 1
under the fresh id. -/
theorem claim_saveEntry_revision_witness :
    ((saveEntry [baseEntry] baseEntry "u" "t").1.version = baseEntry.version + 1 ∧
      getEntryById (saveEntry [baseEntry] baseEntry "u" "t").2 baseEntry.id =
        some (saveEntry [baseEntry] baseEntry "u" "t").1) ∧
    ((saveEntry [] baseEntry "u" "t").1.version = 1 ∧
      getEntryById (saveEntry [] baseEntry "u" "t").2
          (saveEntry [] baseEntry "u" "t").1.id =
        some (saveEntry [] baseEntry "u" "t").1) :=
  ⟨(claim_saveEntry_revision [baseEntry] baseEntry "u" "t").1 baseEntry
      (by decide) (by decide),
   (claim_saveEntry_revision [] baseEntry "u" "t").2 (Or.inr (by decide))⟩

/-- C2 (code-bug demonstration): `deleteEntry` receives no role and
performs no authorization check — after `deleteEntry store id` the entry is
gone for *every* store and id, with no possible `AuthorizationError`. -/
theorem claim_deleteEntry_unconditional (store : Store) (id : String) :
    getEntryById (deleteEntry store id) id = none := by
  unfold deleteEntry
  exact getEntryById_removeEntry_self store id

/-- A concrete legacy-model entry for the part_011 service. -/
def wBase : StoryWriterEntry :=
  { id := "1"
    createdUtc := "2024-09-01T12:00:00Z"
    updatedUtc := "2024-09-01T12:00:00Z"
    title := "Inception • DLX • Project Boot"
    dateUtc := "2024-09-01T12:00:00Z"
    executiveSummary := "DLX project initiated."
    whatChanged := "- Monorepo created"
    decisionsRationale := "Local-first approach chosen."
    risksMitigations := "Risk: complexity."
    references := { commitHashes := some ["abcd1234"] }
    tags := ["backfill", "decision"]
    roleAttributions := [{ role := "lux", author := "lux",
                           contributionSummary := "Strategic direction" }]
    status := WStatus.active
    revision := 1 }

/-- C3 counterexample: (i) the legacy `updateEntry` *fails with a not-found
error* on an unknown id instead of creating an entry, and (ii) `saveEntry`
applies no draft default — a create that carries `status = archived`
(neither draft nor explicitly published) is persisted as `archived`. -/
theorem claim_upsert_counterexample :
    updateEntry [] "missing" wBase "2024-10-01T00:00:00Z" =
      Except.error "Entry with id missing not found" ∧
    (saveEntry [] { baseEntry with id := "", status := Status.archived }
        "u" "t").1.status = Status.archived :=
  ⟨rfl, rfl⟩

/-- C3 amended: in the current service, `saveEntry` with an absent or
unknown id never fails — it creates an entry with `version = 1`, carrying
the caller-supplied `status` unchanged (no draft default), retrievable
under its fresh id.  (The legacy `updateEntry` of part_011, by contrast,
rejects unknown ids with a not-found error.) -/
theorem claim_saveEntry_upsert (store : Store) (entryData : StoryEntry)
    (uuid now : String)
    (h : entryData.id = "" ∨ getEntryById store entryData.id = none) :
    (saveEntry store entryData uuid now).1.version = 1 ∧
    (saveEntry store entryData uuid now).1.status = entryData.status ∧
    getEntryById (saveEntry store entryData uuid now).2
        (saveEntry store entryData uuid now).1.id =
      some (saveEntry store entryData uuid now).1 := by
  have hsave : saveEntry store entryData uuid now =
      (let newEntry :=
        { entryData with id := uuid, createdAt := now, updatedAt := now, version := 1 }
       (newEntry, setEntry store newEntry)) := by
    unfold saveEntry
    rw [if_pos h]
  rw [hsave]
  exact ⟨rfl, rfl, getEntryById_setEntry_self store _⟩

/-- Witness for the amended C3 at a concrete unknown-id save. -/
theorem claim_saveEntry_upsert_witness :
    (saveEntry [baseEntry] { baseEntry with id := "2" } "u" "t").1.version = 1 ∧
    (saveEntry [baseEntry] { baseEntry with id := "2" } "u" "t").1.status =
      ({ baseEntry with id := "2" } : StoryEntry).status ∧
    getEntryById (saveEntry [baseEntry] { baseEntry with id := "2" } "u" "t").2
        (saveEntry [baseEntry] { baseEntry with id := "2" } "u" "t").1.id =
      some (saveEntry [baseEntry] { baseEntry with id := "2" } "u" "t").1 :=
  claim_saveEntry_upsert [baseEntry] { baseEntry with id := "2" } "u" "t"
    (Or.inr (by decide))

/-- An archived entry dated later than the two tied entries below. -/
def cexArchived : StoryEntry :=
  { baseEntry with
    id := "a"
    date := "2024-09-03 10:00:00"
    createdAt := "2024-09-03T10:00:00Z"
    status := Status.archived }

/-- Tied `date` with `cexTieNew`, but the *older* `createdAt`. -/
def cexTieOld : StoryEntry :=
  { baseEntry with
    id := "b"
    date := "2024-09-01 12:00:00"
    createdAt := "2024-01-01T00:00:00Z" }

/-- Tied `date` with `cexTieOld`, but the *newer* `createdAt`. -/
def cexTieNew : StoryEntry :=
  { baseEntry with
    id := "c"
    date := "2024-09-01 12:00:00"
    createdAt := "2024-06-01T00:00:00Z" }

/-- The timestamp key of an ISO `YYYY-MM-DDTHH:MM:SSZ` string such as
`createdAt`, mixed-radix as in `dateKey` (monotone in the instant). -/
def isoDateKey (s : String) : ℕ :=
  match s.data with
  | [y1, y2, y3, y4, '-', m1, m2, '-', d1, d2, 'T', h1, h2, ':', n1, n2, ':', s1, s2, 'Z'] =>
      digitsVal [y1, y2, y3, y4, m1, m2, d1, d2, h1, h2, n1, n2, s1, s2]
  | _ => 0

/-- C5 counterexample: on the store `[cexTieOld, cexTieNew, cexArchived]`
(insertion order), `getEntries` returns the archived entry (no default
exclusion) and leaves the date-tied pair in insertion order — `cexTieOld`
first despite its older `createdAt` — contradicting both the
archived-exclusion and the createdAt-descending tie-break. -/
theorem claim_getEntries_counterexample :
    getEntries [cexTieOld, cexTieNew, cexArchived] =
      [cexArchived, cexTieOld, cexTieNew] ∧
    cexArchived.status = Status.archived ∧
    cexTieOld.date = cexTieNew.date ∧
    isoDateKey cexTieOld.createdAt < isoDateKey cexTieNew.createdAt := by
  refine ⟨by decide, by decide, by decide, by decide⟩

/-- C5 amended: `getEntries` returns *all* stored entries (archived
included), stably sorted by the `date` key descending; equal dates keep the
map's insertion order and `createdAt` plays no role. -/
theorem claim_getEntries_amended (store : Store) :
    List.Perm (getEntries store) store ∧
    (getEntries store).Pairwise (fun a b => dateKey b.date ≤ dateKey a.date) :=
  ⟨sortDescBy_perm _ store, sortDescBy_pairwise _ store⟩

/-- A unit embedding block shared by the counterexample entries. -/
def unitEmbeddings : WEmbeddings :=
  { executiveSummary := [1]
    decisionsRationale := [1]
    risksMitigations := [1] }

/-- Target entry for the `findSimilarEntries` counterexample. -/
def wTarget : StoryWriterEntry :=
  { wBase with
    id := "t"
    embeddings := some unitEmbeddings }

/-- A *superseded* entry carrying an embedding block. -/
def wSuper : StoryWriterEntry :=
  { wBase with
    id := "s"
    status := WStatus.superseded
    embeddings := some unitEmbeddings }

/-- The legacy store holding the target and the superseded entry. -/
def cexWStore : WStore := [("t", wTarget), ("s", wSuper)]

/-- C6 counterexample: `findSimilarEntries` applies no status filter — the
superseded entry `wSuper` is returned among the similar entries. -/
theorem claim_findSimilarEntries_counterexample :
    wSuper.status = WStatus.superseded ∧
    (findSimilarEntries cexWStore wTarget 5).map Prod.fst = [wSuper] :=
  ⟨rfl, rfl⟩

/-- C6 amended: `findSimilarEntries` never returns the target itself,
returns at most `topK` results with non-increasing scores, and its
candidate pool is *every other entry carrying an embedding block,
regardless of status* (superseded entries included); when the target has an
embedding block, exactly `min topK (number of candidates)` results are
returned. -/
theorem claim_findSimilarEntries_amended (store : WStore)
    (target : StoryWriterEntry) (topK : ℕ) :
    (∀ p ∈ findSimilarEntries store target topK,
      p.1.id ≠ target.id ∧ p.1 ∈ wGetEntries store ∧ p.1.embeddings.isSome) ∧
    (findSimilarEntries store target topK).length ≤ topK ∧
    (findSimilarEntries store target topK).Pairwise (fun a b => b.2 ≤ a.2) ∧
    (target.embeddings.isSome →
      (findSimilarEntries store target topK).length =
        min topK ((wGetEntries store).filter
          (fun e => e.id != target.id && e.embeddings.isSome)).length) := by
  cases htgt : target.embeddings with
  | none =>
      have hres : findSimilarEntries store target topK = [] := by
        simp only [findSimilarEntries, htgt]
      rw [hres]
      refine ⟨by simp, by simp, by simp, ?_⟩
      intro h
      simp at h
  | some emb =>
      have hres : findSimilarEntries store target topK =
          (sortDescBy (fun p => p.2)
            (((wGetEntries store).filter
                (fun e => e.id != target.id && e.embeddings.isSome)).map
              (fun e => (e, cosineSimilarity emb.executiveSummary
                (wExecEmbedding e))))).take topK := by
        simp only [findSimilarEntries, htgt]
      rw [hres]
      refine ⟨?_, ?_, ?_, ?_⟩
      · intro p hp
        have hp1 := List.mem_of_mem_take hp
        have hp2 := mem_sortDescBy.mp hp1
        rcases List.mem_map.mp hp2 with ⟨e, he, rfl⟩
        rcases List.mem_filter.mp he with ⟨hmem, hpred⟩
        simp only [Bool.and_eq_true, bne_iff_ne, ne_eq] at hpred
        exact ⟨hpred.1, hmem, hpred.2⟩
      · rw [List.length_take]
        exact min_le_left _ _
      · exact List.Pairwise.sublist (List.take_sublist _ _)
          (sortDescBy_pairwise _ _)
      · intro _
        rw [List.length_take, (sortDescBy_perm _ _).length_eq, List.length_map]

/-- Witness for the amended C6 at the concrete store. -/
theorem claim_findSimilarEntries_amended_witness :
    (findSimilarEntries cexWStore wTarget 5).length ≤ 5 ∧
    (findSimilarEntries cexWStore wTarget 5).length =
      min 5 ((wGetEntries cexWStore).filter
        (fun e => e.id != wTarget.id && e.embeddings.isSome)).length :=
  ⟨(claim_findSimilarEntries_amended cexWStore wTarget 5).2.1,
   (claim_findSimilarEntries_amended cexWStore wTarget 5).2.2.2 rfl⟩

/-- `baseEntry` with its title removed (empty, i.e. JS-falsy). -/
def entryMissingTitle : StoryEntry := { baseEntry with title := "" }

/-- `baseEntry` with only soft findings: a short executive summary and no
references. -/
def entrySoft : StoryEntry :=
  { baseEntry with
    executiveSummary := "Short note here"
    references := [] }

/-- C7: `validate` flags a missing title by name (and `isValid` is false),
returns no errors on a fully populated valid entry, and the soft findings
(short executive summary, no references) surface only as warnings —
`isValid` is determined by the error list alone, so warnings never make it
false. -/
theorem claim_validate_title_and_soft :
    ("Missing required field: title" ∈ (validate entryMissingTitle).errors ∧
      (validate entryMissingTitle).isValid = false) ∧
    (validate baseEntry).errors = [] ∧
    (∀ e : StoryEntry, (validate e).isValid = (validate e).errors.isEmpty) ∧
    ((validate entrySoft).isValid = true ∧ (validate entrySoft).warnings ≠ []) :=
  ⟨⟨by decide, by decide⟩, by decide, fun _ => rfl, by decide, by decide⟩

/-- The source's default `StoryWriterConfig`. -/
def cfgDefault : StoryWriterConfig :=
  { enableAutomation := true
    autoPublish := false
    defaultAuthor := "mini-lux"
    includeReferences := true }

/-- A PR-merge event whose `merged_at` is null. -/
def evNullMerge : GitHubPREvent :=
  { action := "closed"
    pull_request :=
      { number := 7
        title := "Fix cache TTL"
        html_url := "https://example.com/pr/7"
        merged_at := none
        userLogin := "dev"
        baseRef := "main"
        headSha := "abc1234def"
        body := none } }

/-- C8: a PR-merge event with a null merge timestamp creates no entry and
leaves the store untouched (the pipeline skips instead of failing), and the
ordered first-match classifier maps any title containing `rollback` — in
particular "Rollback database migration" — to `EntryType.Rollback`. -/
theorem claim_prMerge_skip_and_classify :
    (∀ (cfg : StoryWriterConfig) (store : Store) (ev : GitHubPREvent)
        (entryId saveUuid saveNow nowIso nowFmt : String),
      ev.pull_request.merged_at = none →
      createEntryFromPRMerge cfg store ev entryId saveUuid saveNow nowIso nowFmt =
        (none, store)) ∧
    determineEntryTypeFromPR "Rollback database migration" none =
      EntryType.Rollback ∧
    (∀ (title : String) (body : Option String),
      containsSub (toLowerStr title) "rollback" = true →
      determineEntryTypeFromPR title body = EntryType.Rollback) := by
  refine ⟨?_, by decide, ?_⟩
  · intro cfg store ev entryId saveUuid saveNow nowIso nowFmt h
    unfold createEntryFromPRMerge
    by_cases hc : cfg.enableAutomation
    · rw [if_neg (by simp [hc]), h]
    · rw [if_pos (by simp [hc])]
  · intro title body h
    simp [determineEntryTypeFromPR, h]

/-- Witness for C8 at the concrete null-timestamp event and rollback PR
title. -/
theorem claim_prMerge_skip_and_classify_witness :
    createEntryFromPRMerge cfgDefault [] evNullMerge "e" "u" "sn" "n" "f" =
      (none, []) ∧
    determineEntryTypeFromPR "Rollback database migration" none =
      EntryType.Rollback :=
  ⟨claim_prMerge_skip_and_classify.1 cfgDefault [] evNullMerge "e" "u" "sn" "n" "f" rfl,
   claim_prMerge_skip_and_classify.2.1⟩

theorem getLedger_archive (store : LedgerStore) (oldId : String)
    (old : LedgerEntry) (h : getLedger store oldId = some old) :
    getLedger (store.map
        (fun e => if e.id = oldId then { e with status := Status.archived } else e))
      oldId = some { old with status := Status.archived } := by
  induction store with
  | nil => simp [getLedger, keyFind] at h
  | cons e es ih =>
      unfold getLedger at h ⊢
      rw [keyFind_cons] at h
      rw [List.map_cons]
      by_cases he : e.id = oldId
      · rw [if_pos he] at h
        have hold : e = old := by injection h
        rw [if_pos he]
        have hid : ({ e with status := Status.archived } : LedgerEntry).id = oldId := he
        rw [keyFind_cons, if_pos hid, hold]
      · rw [if_neg he] at h
        rw [if_neg he, keyFind_cons, if_neg he]
        exact ih h

/-- C4 (modelled from the spec — no `supersede` exists under `src/`):
`supersede(oldId, newEntry)` is atomic across the two records — on an
unknown `oldId` it fails with no visible mutation, and on success both
mutations are visible in the returned store: the old entry remains
retrievable (never physically removed) with status flipped to `archived`,
and the new entry is retrievable with `supersedesEntryId = oldId`; when the
new entry is not itself archived, exactly one of the two is non-archived. -/
theorem claim_supersede_atomic (store : LedgerStore) (oldId : String)
    (newEntry : LedgerEntry) :
    (getLedger store oldId = none →
      supersede store oldId newEntry = Except.error "NotFound") ∧
    ((getLedger store oldId).isSome →
      ∃ store', supersede store oldId newEntry = Except.ok store') ∧
    (∀ old store', getLedger store oldId = some old → newEntry.id ≠ oldId →
      supersede store oldId newEntry = Except.ok store' →
      getLedger store' oldId = some { old with status := Status.archived } ∧
      getLedger store' newEntry.id =
        some { newEntry with supersedesEntryId := some oldId } ∧
      (newEntry.status ≠ Status.archived →
        ({ old with status := Status.archived }).status = Status.archived ∧
        ({ newEntry with supersedesEntryId := some oldId }).status ≠
          Status.archived)) := by
  refine ⟨?_, ?_, ?_⟩
  · intro h
    unfold supersede
    rw [h]
  · intro h
    rcases Option.isSome_iff_exists.mp h with ⟨old, hold⟩
    have hok : supersede store oldId newEntry =
        Except.ok (keySet (fun e => e.id)
          (store.map (fun e =>
            if e.id = oldId then { e with status := Status.archived } else e))
          { newEntry with supersedesEntryId := some oldId }) := by
      unfold supersede
      rw [hold]
    exact ⟨_, hok⟩
  · intro old store' hold hne hok
    unfold supersede at hok
    rw [hold] at hok
    have hstore' : store' =
        keySet (fun e => e.id)
          (store.map (fun e =>
            if e.id = oldId then { e with status := Status.archived } else e))
          { newEntry with supersedesEntryId := some oldId } := by
      injection hok with h'
      exact h'.symm
    subst hstore'
    have hnewid : ({ newEntry with supersedesEntryId := some oldId } : LedgerEntry).id
        = newEntry.id := rfl
    refine ⟨?_, ?_, ?_⟩
    · have := keyFind_keySet_ne (fun e => e.id)
        (store.map (fun e =>
          if e.id = oldId then { e with status := Status.archived } else e))
        { newEntry with supersedesEntryId := some oldId } (hnewid ▸ hne)
      unfold getLedger
      rw [this]
      exact getLedger_archive store oldId old hold
    · have := keyFind_keySet_self (fun e => e.id)
        (store.map (fun e =>
          if e.id = oldId then { e with status := Status.archived } else e))
        { newEntry with supersedesEntryId := some oldId }
      unfold getLedger
      rw [hnewid] at this
      exact this
    · intro hns
      exact ⟨rfl, hns⟩

/-- The demo ledger for the supersede witness. -/
def demoLedger : LedgerStore := [{ id := "1", status := Status.published }]

/-- The replacement entry for the supersede witness. -/
def demoNew : LedgerEntry := { id := "2", status := Status.draft }

/-- The ledger state after `supersede demoLedger "1" demoNew`. -/
def demoResult : LedgerStore :=
  [{ id := "1", status := Status.archived },
   { id := "2", status := Status.draft, supersedesEntryId := some "1" }]

/-- Witness for C4 at a concrete two-entry supersession. -/
theorem claim_supersede_atomic_witness :
    getLedger demoResult "1" =
      some { id := "1", status := Status.archived, supersedesEntryId := none } ∧
    getLedger demoResult "2" =
      some { id := "2", status := Status.draft, supersedesEntryId := some "1" } := by
  have h := (claim_supersede_atomic demoLedger "1" demoNew).2.2
    { id := "1", status := Status.published } demoResult (by decide) (by decide) rfl
  exact ⟨h.1, h.2.1⟩

end DLX
